import Mathlib

/-!
Verification development for the Pytrics unit-conversion application.

The conversion engine (`src/converter.py`) is embedded shallowly:

* Python floats are modelled by `PFloat`: a finite rational, positive or
  negative infinity, or NaN.  The engine only ever multiplies, divides,
  adds and subtracts by nonzero finite constants (the table factors and
  the affine temperature constants), so the IEEE behaviour of those
  operations on non-finite operands is captured exactly by the
  constructor-preserving cases below.
* The per-category factor dictionaries become association lists with an
  `Option`-returning lookup, so the membership checks of the Python code
  are represented faithfully.
* Raised exceptions become `Except ConvError` results:
  `KeyError ↦ unknownUnit`, `ZeroDivisionError ↦ degenerateFactor`,
  `ValueError (inf/nan result) ↦ numericOverflow` (carrying the
  offending value, as the Python message does).

The history recorder of `src/main.py` and the custom-theme loader of
`src/theme.py` are embedded further down, each over an explicit model of
its external input (the widget-free history list; the parsed JSON
document).
-/

/-- Model of a Python float: a finite rational or one of the three
non-finite values. -/
inductive PFloat
  | finite (q : ℚ)
  | posInf
  | negInf
  | nan
deriving DecidableEq, Repr

namespace PFloat

/-- Model of `not (math.isinf x) and not (math.isnan x)`. -/
def isFinite : PFloat → Bool
  | .finite _ => true
  | _ => false

/-- Model of `math.isinf`. -/
def isInf : PFloat → Bool
  | .posInf => true
  | .negInf => true
  | _ => false

/-- Model of `math.isnan`. -/
def isNaN : PFloat → Bool
  | .nan => true
  | _ => false

/-- Multiplication of a float by a finite constant (every factor the
engine multiplies by is a finite table entry or a small integer).  The
non-finite cases follow IEEE 754: an infinity keeps or flips its sign
with the sign of the constant and becomes NaN for a zero constant; NaN
propagates. -/
def mulC : PFloat → ℚ → PFloat
  | .finite q, c => .finite (q * c)
  | .posInf, c => if 0 < c then .posInf else if c < 0 then .negInf else .nan
  | .negInf, c => if 0 < c then .negInf else if c < 0 then .posInf else .nan
  | .nan, _ => .nan

/-- Division of a float by a finite constant.  The engine guards every
division by a `factor == 0.0` check (raising `ZeroDivisionError` before
dividing), so the divisor is nonzero wherever `divC` is applied; the
finite case uses rational division. -/
def divC : PFloat → ℚ → PFloat
  | .finite q, c => .finite (q / c)
  | .posInf, c => if 0 < c then .posInf else if c < 0 then .negInf else .nan
  | .negInf, c => if 0 < c then .negInf else if c < 0 then .posInf else .nan
  | .nan, _ => .nan

/-- Addition of a finite constant, IEEE behaviour on non-finite values. -/
def addC : PFloat → ℚ → PFloat
  | .finite q, c => .finite (q + c)
  | .posInf, _ => .posInf
  | .negInf, _ => .negInf
  | .nan, _ => .nan

/-- Subtraction of a finite constant (`value - 32`, `value - 273.15`). -/
def subC (x : PFloat) (c : ℚ) : PFloat := x.addC (-c)

end PFloat

/-- The `LengthUnit` enumeration of `converter.py`. -/
inductive LengthUnit
  | meters | kilometers | centimeters | millimeters
  | miles | yards | feet | inches
deriving DecidableEq, Fintype, Repr

/-- The `WeightUnit` enumeration of `converter.py`. -/
inductive WeightUnit
  | kilograms | grams | pounds | ounces | tons | metric_tons
deriving DecidableEq, Fintype, Repr

/-- The `TemperatureUnit` enumeration of `converter.py`. -/
inductive TemperatureUnit
  | celsius | fahrenheit | kelvin
deriving DecidableEq, Fintype, Repr

/-- The `VolumeUnit` enumeration of `converter.py`. -/
inductive VolumeUnit
  | liters | milliliters | gallons | quarts | pints | cups | fluid_ounces
deriving DecidableEq, Fintype, Repr

/-- Association-list lookup modelling Python dict membership/indexing on
the factor dictionaries (`u in table` / `table[u]`). -/
def lookupFactor {α : Type} [DecidableEq α] (table : List (α × ℚ)) (u : α) : Option ℚ :=
  match table with
  | [] => none
  | (k, v) :: rest => if u = k then some v else lookupFactor rest u

/-- The `LENGTH_TO_METERS` dictionary of `converter.py`. -/
def LENGTH_TO_METERS : List (LengthUnit × ℚ) :=
  [(.meters, 1.0), (.kilometers, 1000.0), (.centimeters, 0.01), (.millimeters, 0.001),
   (.miles, 1609.344), (.yards, 0.9144), (.feet, 0.3048), (.inches, 0.0254)]

/-- The `WEIGHT_TO_KILOGRAMS` dictionary of `converter.py`. -/
def WEIGHT_TO_KILOGRAMS : List (WeightUnit × ℚ) :=
  [(.kilograms, 1.0), (.grams, 0.001), (.pounds, 0.453592), (.ounces, 0.0283495),
   (.tons, 907.185), (.metric_tons, 1000.0)]

/-- The `VOLUME_TO_LITERS` dictionary of `converter.py`. -/
def VOLUME_TO_LITERS : List (VolumeUnit × ℚ) :=
  [(.liters, 1.0), (.milliliters, 0.001), (.gallons, 3.78541), (.quarts, 0.946353),
   (.pints, 0.473176), (.cups, 0.236588), (.fluid_ounces, 0.0295735)]

/-- Failure modes of the conversion engine: `unknownUnit` models the
`KeyError` of a missing dictionary entry, `degenerateFactor` the
`ZeroDivisionError` of a zero factor, and `numericOverflow` the
`ValueError` raised when the computed result is infinite or NaN
(carrying the offending value, as the Python message does). -/
inductive ConvError
  | unknownUnit
  | degenerateFactor
  | numericOverflow (result : PFloat)
deriving DecidableEq, Repr

/-- Shared body of `convert_length`, `convert_weight` and
`convert_volume` (the three Python functions are textually identical up
to the dictionary used): identity short-circuit, membership checks,
zero-factor checks, multiply to the base unit, divide to the target
unit, overflow check. -/
def convertByTable {α : Type} [DecidableEq α] (table : List (α × ℚ))
    (value : PFloat) (fromUnit toUnit : α) : Except ConvError PFloat :=
  if fromUnit = toUnit then .ok value
  else
    match lookupFactor table fromUnit, lookupFactor table toUnit with
    | none, _ => .error .unknownUnit
    | some _, none => .error .unknownUnit
    | some fromFactor, some toFactor =>
      if fromFactor = 0 then .error .degenerateFactor
      else if toFactor = 0 then .error .degenerateFactor
      else
        let result := (value.mulC fromFactor).divC toFactor
        if result.isInf || result.isNaN then .error (.numericOverflow result)
        else .ok result

/-- Model of `UnitConverter.convert_length`. -/
def convert_length (value : PFloat) (fromUnit toUnit : LengthUnit) : Except ConvError PFloat :=
  convertByTable LENGTH_TO_METERS value fromUnit toUnit

/-- Model of `UnitConverter.convert_weight`. -/
def convert_weight (value : PFloat) (fromUnit toUnit : WeightUnit) : Except ConvError PFloat :=
  convertByTable WEIGHT_TO_KILOGRAMS value fromUnit toUnit

/-- Model of `UnitConverter.convert_volume`. -/
def convert_volume (value : PFloat) (fromUnit toUnit : VolumeUnit) : Except ConvError PFloat :=
  convertByTable VOLUME_TO_LITERS value fromUnit toUnit

/-- The first dispatch chain of `convert_temperature`: convert the input
to Celsius.  The final `else` mirrors the Python fallback that treats an
unmatched unit as Celsius. -/
def tempToCelsius (value : PFloat) (u : TemperatureUnit) : PFloat :=
  if u = .celsius then value
  else if u = .fahrenheit then ((value.subC 32).mulC 5).divC 9
  else if u = .kelvin then value.subC 273.15
  else value

/-- The second dispatch chain of `convert_temperature`: convert the
Celsius intermediate to the target unit, with the same Celsius fallback. -/
def tempFromCelsius (celsius : PFloat) (u : TemperatureUnit) : PFloat :=
  if u = .celsius then celsius
  else if u = .fahrenheit then ((celsius.mulC 9).divC 5).addC 32
  else if u = .kelvin then celsius.addC 273.15
  else celsius

/-- Model of `UnitConverter.convert_temperature`. -/
def convert_temperature (value : PFloat) (fromUnit toUnit : TemperatureUnit) :
    Except ConvError PFloat :=
  if fromUnit = toUnit then .ok value
  else
    let result := tempFromCelsius (tempToCelsius value fromUnit) toUnit
    if result.isInf || result.isNaN then .error (.numericOverflow result)
    else .ok result

/-- Rational-level source-to-Celsius map as the specification states it:
fahrenheit `(value − 32) × 5/9`, kelvin `value − 273.15`. -/
def tempToCelsiusQ (q : ℚ) (u : TemperatureUnit) : ℚ :=
  match u with
  | .celsius => q
  | .fahrenheit => (q - 32) * (5 / 9)
  | .kelvin => q - 273.15

/-- Rational-level Celsius-to-target map as the specification states it:
fahrenheit `celsius × 9/5 + 32`, kelvin `celsius + 273.15`. -/
def tempFromCelsiusQ (c : ℚ) (u : TemperatureUnit) : ℚ :=
  match u with
  | .celsius => c
  | .fahrenheit => c * (9 / 5) + 32
  | .kelvin => c + 273.15

deriving instance DecidableEq for Except

/-- Model of `UnitConverterWindow.add_to_history` acting on the
`conversion_history` list (most recent entry first): `insert(0, entry)`
followed by `pop()` of the last element when the length exceeds 50. -/
def add_to_history (entry : String) (history : List String) : List String :=
  let h := entry :: history
  if h.length > 50 then h.dropLast else h

/-- JSON value as far as the theme loader inspects it: a string, or any
non-string value (`isinstance(color_value, str)` is false). -/
inductive JVal
  | str (s : String)
  | other
deriving DecidableEq, Repr

/-- Outcome of the file-system and JSON-parsing steps of
`ThemeManager.load_custom_theme`: the file is absent
(`os.path.exists` false), the file exists but `json.load` fails
(`json.JSONDecodeError` / `IOError` / `OSError`, all caught), or a JSON
object was parsed into a key-value mapping. -/
inductive ThemeFile
  | missing
  | badJson
  | parsed (data : List (String × JVal))
deriving DecidableEq, Repr

/-- The `required_colors` list of `load_custom_theme`. -/
def requiredColors : List String := ["primary", "secondary", "neutral", "accent", "status"]

/-- Whitespace stripped by Python `int(s, 16)` before parsing. -/
def pyWs (c : Char) : Bool :=
  c = ' ' || c = '\t' || c = '\n' || c = '\r' || c = '\x0b' || c = '\x0c'

/-- Hexadecimal digit as accepted by Python `int(s, 16)`. -/
def isHexDig (c : Char) : Bool :=
  ('0' ≤ c && c ≤ '9') || ('a' ≤ c && c ≤ 'f') || ('A' ≤ c && c ≤ 'F')

/-- Continuation of a Python base-16 digit run: single underscores are
permitted between digits. -/
def hexDigitsRest : List Char → Bool
  | [] => true
  | '_' :: c :: rest => isHexDig c && hexDigitsRest rest
  | c :: rest => isHexDig c && hexDigitsRest rest

/-- Nonempty Python base-16 digit run (no leading underscore). -/
def hexDigitsOk : List Char → Bool
  | [] => false
  | c :: rest => isHexDig c && hexDigitsRest rest

/-- Digit part following a `0x`/`0X` marker in Python `int(s, 16)`: one
underscore may directly follow the marker. -/
def hexAfterMarker (l : List Char) : Bool :=
  match l with
  | '_' :: rest => hexDigitsOk rest
  | _ => hexDigitsOk l

/-- Model of `int(s, 16)` succeeding on the character sequence of `s` in
Python: optional surrounding whitespace, an optional sign, an optional
`0x`/`0X` marker, then base-16 digits with single underscores permitted
between them.  Python strings are sequences of code points, so the
argument is the string's character list. -/
def intHexAccepts (s : List Char) : Bool :=
  let l := ((s.dropWhile pyWs).reverse.dropWhile pyWs).reverse
  let l := match l with
    | '+' :: r => r
    | '-' :: r => r
    | r => r
  match l with
  | '0' :: 'x' :: r => hexAfterMarker r
  | '0' :: 'X' :: r => hexAfterMarker r
  | r => hexDigitsOk r

/-- Per-value validation applied by `load_custom_theme` to each required
color: a non-empty string (`not color_value` / `isinstance` checks),
starting with `#` (`color_value.startswith`), of total length 7
(`len(color_value) != 7`), whose remainder `color_value[1:]` is accepted
by `int(·, 16)`. -/
def validColorValue (v : JVal) : Bool :=
  match v with
  | .str s =>
    s ≠ "" && s.toList.head? = some '#' && s.toList.length = 7 && intHexAccepts (s.toList.drop 1)
  | .other => false

/-- Key membership, modelling `color in theme_data`. -/
def hasKey (data : List (String × JVal)) (k : String) : Bool :=
  data.any fun p => p.1 = k

/-- Model of `ThemeManager.load_custom_theme` over the parsed input:
`None` for a missing or unparsable file; `None` unless all five required
keys are present; `None` if any required key's value fails validation;
otherwise the parsed mapping itself. -/
def load_custom_theme (file : ThemeFile) : Option (List (String × JVal)) :=
  match file with
  | .missing => none
  | .badJson => none
  | .parsed data =>
    if requiredColors.all (fun c => hasKey data c) then
      if data.all (fun p => if p.1 ∈ requiredColors then validColorValue p.2 else true) then
        some data
      else none
    else none

/-- Validity of a color value exactly as the specification words it: a
`#` followed by exactly 6 hexadecimal digits. -/
def specValidHex (s : String) : Bool :=
  s.toList.head? = some '#' && s.toList.length = 7 && (s.toList.drop 1).all isHexDig

/-- A parsed theme document whose `primary` value `"#+12345"` is not a
`#` followed by six hexadecimal digits (it contains a sign), while the
other four values are ordinary hex colors.  Python's `int("+12345", 16)`
parses the leading sign, so `load_custom_theme` accepts this document. -/
def badTheme : List (String × JVal) :=
  [("primary", JVal.str "#+12345"), ("secondary", JVal.str "#112233"),
   ("neutral", JVal.str "#445566"), ("accent", JVal.str "#778899"),
   ("status", JVal.str "#aabbcc")]

/-- A float that is not finite is unchanged by multiplication by a
positive constant (IEEE: infinities keep their sign, NaN propagates). -/
lemma PFloat.mulC_nonfinite {v : PFloat} (hv : v.isFinite = false) {c : ℚ} (hc : 0 < c) :
    v.mulC c = v := by
  cases v with
  | finite q => simp [PFloat.isFinite] at hv
  | posInf => simp [PFloat.mulC, hc]
  | negInf => simp [PFloat.mulC, hc]
  | nan => rfl

/-- A float that is not finite is unchanged by division by a positive
constant. -/
lemma PFloat.divC_nonfinite {v : PFloat} (hv : v.isFinite = false) {c : ℚ} (hc : 0 < c) :
    v.divC c = v := by
  cases v with
  | finite q => simp [PFloat.isFinite] at hv
  | posInf => simp [PFloat.divC, hc]
  | negInf => simp [PFloat.divC, hc]
  | nan => rfl

/-- A float that is not finite is unchanged by adding a constant. -/
lemma PFloat.addC_nonfinite {v : PFloat} (hv : v.isFinite = false) (c : ℚ) :
    v.addC c = v := by
  cases v with
  | finite q => simp [PFloat.isFinite] at hv
  | posInf => rfl
  | negInf => rfl
  | nan => rfl

/-- A float that is not finite is unchanged by subtracting a constant. -/
lemma PFloat.subC_nonfinite {v : PFloat} (hv : v.isFinite = false) (c : ℚ) :
    v.subC c = v := PFloat.addC_nonfinite hv (-c)

/-- The engine's overflow guard fires exactly on non-finite values. -/
lemma PFloat.guard_eq_not_isFinite (v : PFloat) : (v.isInf || v.isNaN) = !v.isFinite := by
  cases v <;> rfl

/-- Identity short-circuit of the three table-driven conversions. -/
lemma convertByTable_self {α : Type} [DecidableEq α] (table : List (α × ℚ))
    (v : PFloat) (u : α) : convertByTable table v u u = .ok v := by
  simp [convertByTable]

/-- Shape of a table-driven conversion between distinct units whose
factors are present and nonzero: the guarded base-unit computation. -/
lemma convertByTable_eq {α : Type} [DecidableEq α] {table : List (α × ℚ)} {fa fb : ℚ}
    (v : PFloat) {a b : α} (hab : a ≠ b)
    (ha : lookupFactor table a = some fa) (hb : lookupFactor table b = some fb)
    (hfa : fa ≠ 0) (hfb : fb ≠ 0) :
    convertByTable table v a b =
      if ((v.mulC fa).divC fb).isInf || ((v.mulC fa).divC fb).isNaN
      then .error (.numericOverflow ((v.mulC fa).divC fb))
      else .ok ((v.mulC fa).divC fb) := by
  simp [convertByTable, hab, ha, hb, hfa, hfb]

/-- A table-driven conversion of a finite value between distinct listed
units with nonzero factors returns `value * fromFactor / toFactor`. -/
lemma convertByTable_finite {α : Type} [DecidableEq α] {table : List (α × ℚ)} {fa fb : ℚ}
    (q : ℚ) {a b : α} (hab : a ≠ b)
    (ha : lookupFactor table a = some fa) (hb : lookupFactor table b = some fb)
    (hfa : fa ≠ 0) (hfb : fb ≠ 0) :
    convertByTable table (.finite q) a b = .ok (.finite (q * fa / fb)) := by
  rw [convertByTable_eq (.finite q) hab ha hb hfa hfb]
  simp [PFloat.mulC, PFloat.divC, PFloat.isInf, PFloat.isNaN]

/-- A table-driven conversion of a non-finite value between distinct
listed units with positive factors raises the overflow error, carrying
that very value. -/
lemma convertByTable_nonfinite {α : Type} [DecidableEq α] {table : List (α × ℚ)} {fa fb : ℚ}
    {v : PFloat} (hv : v.isFinite = false) {a b : α} (hab : a ≠ b)
    (ha : lookupFactor table a = some fa) (hb : lookupFactor table b = some fb)
    (hfa : 0 < fa) (hfb : 0 < fb) :
    convertByTable table v a b = .error (.numericOverflow v) := by
  rw [convertByTable_eq v hab ha hb hfa.ne' hfb.ne',
    PFloat.mulC_nonfinite hv hfa, PFloat.divC_nonfinite hv hfb]
  simp [PFloat.guard_eq_not_isFinite, hv]

/-- Totality and positivity of the shipped length table. -/
lemma length_table_pos (u : LengthUnit) :
    ∃ f, lookupFactor LENGTH_TO_METERS u = some f ∧ 0 < f := by
  cases u <;> exact ⟨_, rfl, by norm_num⟩

/-- Totality and positivity of the shipped weight table. -/
lemma weight_table_pos (u : WeightUnit) :
    ∃ f, lookupFactor WEIGHT_TO_KILOGRAMS u = some f ∧ 0 < f := by
  cases u <;> exact ⟨_, rfl, by norm_num⟩

/-- Totality and positivity of the shipped volume table. -/
lemma volume_table_pos (u : VolumeUnit) :
    ∃ f, lookupFactor VOLUME_TO_LITERS u = some f ∧ 0 < f := by
  cases u <;> exact ⟨_, rfl, by norm_num⟩

/-- The source-to-Celsius chain on a finite value computes the
specification's affine formula. -/
lemma tempToCelsius_finite (q : ℚ) (u : TemperatureUnit) :
    tempToCelsius (.finite q) u = .finite (tempToCelsiusQ q u) := by
  cases u <;>
    simp [tempToCelsius, tempToCelsiusQ, PFloat.subC, PFloat.addC, PFloat.mulC, PFloat.divC] <;>
    ring

/-- The Celsius-to-target chain on a finite value computes the
specification's affine formula. -/
lemma tempFromCelsius_finite (c : ℚ) (u : TemperatureUnit) :
    tempFromCelsius (.finite c) u = .finite (tempFromCelsiusQ c u) := by
  cases u <;>
    simp [tempFromCelsius, tempFromCelsiusQ, PFloat.subC, PFloat.addC, PFloat.mulC, PFloat.divC] <;>
    ring

/-- A non-finite value passes through the source-to-Celsius chain
unchanged. -/
lemma tempToCelsius_nonfinite {v : PFloat} (hv : v.isFinite = false) (u : TemperatureUnit) :
    tempToCelsius v u = v := by
  cases u <;>
    simp [tempToCelsius, PFloat.subC_nonfinite hv, PFloat.addC_nonfinite hv,
      PFloat.mulC_nonfinite hv (by norm_num : (0:ℚ) < 5),
      PFloat.divC_nonfinite hv (by norm_num : (0:ℚ) < 9)]

/-- A non-finite value passes through the Celsius-to-target chain
unchanged. -/
lemma tempFromCelsius_nonfinite {v : PFloat} (hv : v.isFinite = false) (u : TemperatureUnit) :
    tempFromCelsius v u = v := by
  cases u <;>
    simp [tempFromCelsius, PFloat.subC_nonfinite hv, PFloat.addC_nonfinite hv,
      PFloat.mulC_nonfinite hv (by norm_num : (0:ℚ) < 9),
      PFloat.divC_nonfinite hv (by norm_num : (0:ℚ) < 5)]

/-- Shape of a temperature conversion between distinct units: the
two-chain affine computation behind the overflow guard. -/
lemma convert_temperature_eq (v : PFloat) {a b : TemperatureUnit} (hab : a ≠ b) :
    convert_temperature v a b =
      if (tempFromCelsius (tempToCelsius v a) b).isInf ||
         (tempFromCelsius (tempToCelsius v a) b).isNaN
      then .error (.numericOverflow (tempFromCelsius (tempToCelsius v a) b))
      else .ok (tempFromCelsius (tempToCelsius v a) b) := by
  simp [convert_temperature, hab]

/-- A temperature conversion of a finite value between distinct units
returns the composition of the two affine formulas. -/
lemma convert_temperature_finite (q : ℚ) {a b : TemperatureUnit} (hab : a ≠ b) :
    convert_temperature (.finite q) a b =
      .ok (.finite (tempFromCelsiusQ (tempToCelsiusQ q a) b)) := by
  rw [convert_temperature_eq (.finite q) hab, tempToCelsius_finite, tempFromCelsius_finite]
  simp [PFloat.isInf, PFloat.isNaN]

/-- A temperature conversion of a non-finite value between distinct
units raises the overflow error, carrying that very value. -/
lemma convert_temperature_nonfinite {v : PFloat} (hv : v.isFinite = false)
    {a b : TemperatureUnit} (hab : a ≠ b) :
    convert_temperature v a b = .error (.numericOverflow v) := by
  rw [convert_temperature_eq v hab, tempToCelsius_nonfinite hv, tempFromCelsius_nonfinite hv]
  simp [PFloat.guard_eq_not_isFinite, hv]

/-- The affine Celsius maps are mutually inverse, unit by unit. -/
lemma tempFromCelsiusQ_tempToCelsiusQ (q : ℚ) (u : TemperatureUnit) :
    tempFromCelsiusQ (tempToCelsiusQ q u) u = q := by
  cases u <;> simp [tempToCelsiusQ, tempFromCelsiusQ] <;> ring

/-- The affine Celsius maps are mutually inverse in the other order. -/
lemma tempToCelsiusQ_tempFromCelsiusQ (c : ℚ) (u : TemperatureUnit) :
    tempToCelsiusQ (tempFromCelsiusQ c u) u = c := by
  cases u <;> simp [tempToCelsiusQ, tempFromCelsiusQ] <;> ring

/-- A factor found in a table all of whose entries are positive is
positive. -/
lemma lookupFactor_pos_of {α : Type} [DecidableEq α] {table : List (α × ℚ)}
    (htable : ∀ u, ∃ f, lookupFactor table u = some f ∧ 0 < f)
    {a : α} {fa : ℚ} (ha : lookupFactor table a = some fa) : 0 < fa := by
  obtain ⟨f, hf, hp⟩ := htable a
  rw [ha] at hf
  rw [show fa = f from Option.some.inj hf]
  exact hp

/-- C1: for length, weight and volume conversions with distinct units,
the returned result equals `(value * fromFactor) / toFactor`, where the
factors are the shipped per-category base-unit table entries; in
particular `convert_length 1 meters kilometers = 0.001` and
`convert_weight 1 kilograms grams = 1000`. -/
theorem c1_linear_scaling :
    (∀ (q fa fb : ℚ) (a b : LengthUnit), a ≠ b →
       lookupFactor LENGTH_TO_METERS a = some fa →
       lookupFactor LENGTH_TO_METERS b = some fb →
       convert_length (.finite q) a b = .ok (.finite (q * fa / fb))) ∧
    (∀ (q fa fb : ℚ) (a b : WeightUnit), a ≠ b →
       lookupFactor WEIGHT_TO_KILOGRAMS a = some fa →
       lookupFactor WEIGHT_TO_KILOGRAMS b = some fb →
       convert_weight (.finite q) a b = .ok (.finite (q * fa / fb))) ∧
    (∀ (q fa fb : ℚ) (a b : VolumeUnit), a ≠ b →
       lookupFactor VOLUME_TO_LITERS a = some fa →
       lookupFactor VOLUME_TO_LITERS b = some fb →
       convert_volume (.finite q) a b = .ok (.finite (q * fa / fb))) ∧
    convert_length (.finite 1) .meters .kilometers = .ok (.finite 0.001) ∧
    convert_weight (.finite 1) .kilograms .grams = .ok (.finite 1000) := by
  refine ⟨?_, ?_, ?_, ?_, ?_⟩
  · intro q fa fb a b hab ha hb
    exact convertByTable_finite q hab ha hb
      (lookupFactor_pos_of length_table_pos ha).ne'
      (lookupFactor_pos_of length_table_pos hb).ne'
  · intro q fa fb a b hab ha hb
    exact convertByTable_finite q hab ha hb
      (lookupFactor_pos_of weight_table_pos ha).ne'
      (lookupFactor_pos_of weight_table_pos hb).ne'
  · intro q fa fb a b hab ha hb
    exact convertByTable_finite q hab ha hb
      (lookupFactor_pos_of volume_table_pos ha).ne'
      (lookupFactor_pos_of volume_table_pos hb).ne'
  · norm_num +decide [convert_length, convertByTable, lookupFactor, LENGTH_TO_METERS,
      PFloat.mulC, PFloat.divC, PFloat.isInf, PFloat.isNaN]
  · norm_num +decide [convert_weight, convertByTable, lookupFactor, WEIGHT_TO_KILOGRAMS,
      PFloat.mulC, PFloat.divC, PFloat.isInf, PFloat.isNaN]

/-- Witness for C1: the meters-to-kilometers instance of the general
factor-quotient statement. -/
theorem c1_linear_scaling_witness :
    convert_length (.finite 2) .meters .kilometers = .ok (.finite (2 * 1.0 / 1000.0)) :=
  c1_linear_scaling.1 2 1.0 1000.0 .meters .kilometers (by decide) rfl rfl

/-- C2: a temperature conversion between distinct units first maps the
value to Celsius by the source unit's affine formula and then maps that
intermediate to the target unit by the inverse formulas; the four known
fixed points follow. -/
theorem c2_temperature_affine :
    (∀ (q : ℚ) (a b : TemperatureUnit), a ≠ b →
       convert_temperature (.finite q) a b =
         .ok (.finite (tempFromCelsiusQ (tempToCelsiusQ q a) b))) ∧
    convert_temperature (.finite 0) .celsius .fahrenheit = .ok (.finite 32) ∧
    convert_temperature (.finite 100) .celsius .fahrenheit = .ok (.finite 212) ∧
    convert_temperature (.finite 0) .celsius .kelvin = .ok (.finite 273.15) ∧
    convert_temperature (.finite 32) .fahrenheit .celsius = .ok (.finite 0) := by
  refine ⟨fun q a b hab => convert_temperature_finite q hab, ?_, ?_, ?_, ?_⟩ <;>
    norm_num +decide [convert_temperature, tempToCelsius, tempFromCelsius, PFloat.subC,
      PFloat.addC, PFloat.mulC, PFloat.divC, PFloat.isInf, PFloat.isNaN]

/-- Witness for C2: the Celsius-to-Fahrenheit instance of the affine
decomposition. -/
theorem c2_temperature_affine_witness :
    convert_temperature (.finite 0) .celsius .fahrenheit =
      .ok (.finite (tempFromCelsiusQ (tempToCelsiusQ 0 .celsius) .fahrenheit)) :=
  c2_temperature_affine.1 0 .celsius .fahrenheit (by decide)

/-- C3: every conversion with equal source and target unit returns the
input value unchanged, exactly, for every finite value. -/
theorem c3_identity_short_circuit :
    (∀ (q : ℚ) (u : LengthUnit), convert_length (.finite q) u u = .ok (.finite q)) ∧
    (∀ (q : ℚ) (u : WeightUnit), convert_weight (.finite q) u u = .ok (.finite q)) ∧
    (∀ (q : ℚ) (u : TemperatureUnit), convert_temperature (.finite q) u u = .ok (.finite q)) ∧
    (∀ (q : ℚ) (u : VolumeUnit), convert_volume (.finite q) u u = .ok (.finite q)) :=
  ⟨fun _ u => convertByTable_self _ _ u, fun _ u => convertByTable_self _ _ u,
   fun _ _ => by simp [convert_temperature], fun _ u => convertByTable_self _ _ u⟩

/-- Overflow behaviour of a table-driven conversion between distinct
listed units with nonzero factors: the overflow error fires exactly when
the computed quotient is non-finite, and any returned value is finite. -/
lemma convertByTable_overflow_spec {α : Type} [DecidableEq α] {table : List (α × ℚ)}
    {fa fb : ℚ} (v : PFloat) {a b : α} (hab : a ≠ b)
    (ha : lookupFactor table a = some fa) (hb : lookupFactor table b = some fb)
    (hfa : fa ≠ 0) (hfb : fb ≠ 0) :
    (convertByTable table v a b = .error (.numericOverflow ((v.mulC fa).divC fb)) ↔
       (((v.mulC fa).divC fb).isInf || ((v.mulC fa).divC fb).isNaN) = true) ∧
    (∀ r, convertByTable table v a b = .ok r → r.isFinite = true) := by
  rw [convertByTable_eq v hab ha hb hfa hfb]
  by_cases hg : (((v.mulC fa).divC fb).isInf || ((v.mulC fa).divC fb).isNaN) = true
  · simp [hg]
  · have hfin : ((v.mulC fa).divC fb).isFinite = true := by
      rw [PFloat.guard_eq_not_isFinite] at hg
      simpa using hg
    simp only [hg, if_false, Bool.false_eq_true, iff_false]
    refine ⟨by simp, ?_⟩
    intro r hr
    rw [← Except.ok.inj hr]
    exact hfin

/-- Overflow behaviour of a temperature conversion between distinct
units: the overflow error fires exactly when the affine computation is
non-finite, and any returned value is finite. -/
lemma convert_temperature_overflow_spec (v : PFloat) {a b : TemperatureUnit} (hab : a ≠ b) :
    (convert_temperature v a b =
        .error (.numericOverflow (tempFromCelsius (tempToCelsius v a) b)) ↔
       ((tempFromCelsius (tempToCelsius v a) b).isInf ||
        (tempFromCelsius (tempToCelsius v a) b).isNaN) = true) ∧
    (∀ r, convert_temperature v a b = .ok r → r.isFinite = true) := by
  rw [convert_temperature_eq v hab]
  by_cases hg : ((tempFromCelsius (tempToCelsius v a) b).isInf ||
      (tempFromCelsius (tempToCelsius v a) b).isNaN) = true
  · simp [hg]
  · have hfin : (tempFromCelsius (tempToCelsius v a) b).isFinite = true := by
      rw [PFloat.guard_eq_not_isFinite] at hg
      simpa using hg
    simp only [hg, if_false, Bool.false_eq_true, iff_false]
    refine ⟨by simp, ?_⟩
    intro r hr
    rw [← Except.ok.inj hr]
    exact hfin

/-- C4: for each conversion operation with distinct units, the operation
fails with the overflow error, carrying the computed value, exactly when
that computed value is infinite or NaN, and it never returns a
non-finite value. -/
theorem c4_overflow_guard :
    (∀ (v : PFloat) (fa fb : ℚ) (a b : LengthUnit), a ≠ b →
       lookupFactor LENGTH_TO_METERS a = some fa →
       lookupFactor LENGTH_TO_METERS b = some fb →
       (convert_length v a b = .error (.numericOverflow ((v.mulC fa).divC fb)) ↔
          (((v.mulC fa).divC fb).isInf || ((v.mulC fa).divC fb).isNaN) = true) ∧
       (∀ r, convert_length v a b = .ok r → r.isFinite = true)) ∧
    (∀ (v : PFloat) (fa fb : ℚ) (a b : WeightUnit), a ≠ b →
       lookupFactor WEIGHT_TO_KILOGRAMS a = some fa →
       lookupFactor WEIGHT_TO_KILOGRAMS b = some fb →
       (convert_weight v a b = .error (.numericOverflow ((v.mulC fa).divC fb)) ↔
          (((v.mulC fa).divC fb).isInf || ((v.mulC fa).divC fb).isNaN) = true) ∧
       (∀ r, convert_weight v a b = .ok r → r.isFinite = true)) ∧
    (∀ (v : PFloat) (fa fb : ℚ) (a b : VolumeUnit), a ≠ b →
       lookupFactor VOLUME_TO_LITERS a = some fa →
       lookupFactor VOLUME_TO_LITERS b = some fb →
       (convert_volume v a b = .error (.numericOverflow ((v.mulC fa).divC fb)) ↔
          (((v.mulC fa).divC fb).isInf || ((v.mulC fa).divC fb).isNaN) = true) ∧
       (∀ r, convert_volume v a b = .ok r → r.isFinite = true)) ∧
    (∀ (v : PFloat) (a b : TemperatureUnit), a ≠ b →
       (convert_temperature v a b =
           .error (.numericOverflow (tempFromCelsius (tempToCelsius v a) b)) ↔
          ((tempFromCelsius (tempToCelsius v a) b).isInf ||
           (tempFromCelsius (tempToCelsius v a) b).isNaN) = true) ∧
       (∀ r, convert_temperature v a b = .ok r → r.isFinite = true)) := by
  refine ⟨?_, ?_, ?_, fun v a b hab => convert_temperature_overflow_spec v hab⟩
  · intro v fa fb a b hab ha hb
    exact convertByTable_overflow_spec v hab ha hb
      (lookupFactor_pos_of length_table_pos ha).ne'
      (lookupFactor_pos_of length_table_pos hb).ne'
  · intro v fa fb a b hab ha hb
    exact convertByTable_overflow_spec v hab ha hb
      (lookupFactor_pos_of weight_table_pos ha).ne'
      (lookupFactor_pos_of weight_table_pos hb).ne'
  · intro v fa fb a b hab ha hb
    exact convertByTable_overflow_spec v hab ha hb
      (lookupFactor_pos_of volume_table_pos ha).ne'
      (lookupFactor_pos_of volume_table_pos hb).ne'

/-- Witness for C4: a NaN input between distinct length units raises
the overflow error carrying the computed NaN. -/
theorem c4_overflow_guard_witness :
    convert_length .nan .meters .kilometers =
      .error (.numericOverflow ((PFloat.nan.mulC 1.0).divC 1000.0)) :=
  ((c4_overflow_guard.1 .nan 1.0 1000.0 .meters .kilometers (by decide) rfl rfl).1).mpr rfl

/-- Round trip through a positive total factor table is exact on finite
values, hence within any nonnegative tolerance. -/
lemma convertByTable_round_trip {α : Type} [DecidableEq α] {table : List (α × ℚ)}
    (htable : ∀ u, ∃ f, lookupFactor table u = some f ∧ 0 < f) (q : ℚ) (a b : α) :
    ∃ y r : ℚ, convertByTable table (.finite q) a b = .ok (.finite y) ∧
      convertByTable table (.finite y) b a = .ok (.finite r) ∧
      |r - q| ≤ (1 / 1000000000) * |q| := by
  by_cases hab : a = b
  · subst hab
    refine ⟨q, q, convertByTable_self _ _ a, convertByTable_self _ _ a, ?_⟩
    simp
  · obtain ⟨fa, ha, hpa⟩ := htable a
    obtain ⟨fb, hb, hpb⟩ := htable b
    have hba : b ≠ a := fun h => hab h.symm
    refine ⟨q * fa / fb, q * fa / fb * fb / fa,
      convertByTable_finite q hab ha hb hpa.ne' hpb.ne',
      convertByTable_finite _ hba hb ha hpb.ne' hpa.ne', ?_⟩
    rw [div_mul_cancel₀ _ hpb.ne', mul_div_cancel_right₀ _ hpa.ne']
    simp

/-- Round trip of the affine temperature conversion is exact on finite
values, hence within any nonnegative tolerance. -/
lemma temperature_round_trip (q : ℚ) (a b : TemperatureUnit) :
    ∃ y r : ℚ, convert_temperature (.finite q) a b = .ok (.finite y) ∧
      convert_temperature (.finite y) b a = .ok (.finite r) ∧
      |r - q| ≤ (1 / 1000000000) * |q| := by
  by_cases hab : a = b
  · subst hab
    refine ⟨q, q, by simp [convert_temperature], by simp [convert_temperature], ?_⟩
    simp
  · have hba : b ≠ a := fun h => hab h.symm
    refine ⟨_, _, convert_temperature_finite q hab, convert_temperature_finite _ hba, ?_⟩
    rw [tempToCelsiusQ_tempFromCelsiusQ, tempFromCelsiusQ_tempToCelsiusQ]
    simp

/-- C5: for any two units of a category, converting a finite value there
and back yields the original value within a relative tolerance of
`1e-9` (in this rational model the round trip is in fact exact). -/
theorem c5_round_trip :
    (∀ (q : ℚ) (a b : LengthUnit), ∃ y r : ℚ,
       convert_length (.finite q) a b = .ok (.finite y) ∧
       convert_length (.finite y) b a = .ok (.finite r) ∧
       |r - q| ≤ (1 / 1000000000) * |q|) ∧
    (∀ (q : ℚ) (a b : WeightUnit), ∃ y r : ℚ,
       convert_weight (.finite q) a b = .ok (.finite y) ∧
       convert_weight (.finite y) b a = .ok (.finite r) ∧
       |r - q| ≤ (1 / 1000000000) * |q|) ∧
    (∀ (q : ℚ) (a b : VolumeUnit), ∃ y r : ℚ,
       convert_volume (.finite q) a b = .ok (.finite y) ∧
       convert_volume (.finite y) b a = .ok (.finite r) ∧
       |r - q| ≤ (1 / 1000000000) * |q|) ∧
    (∀ (q : ℚ) (a b : TemperatureUnit), ∃ y r : ℚ,
       convert_temperature (.finite q) a b = .ok (.finite y) ∧
       convert_temperature (.finite y) b a = .ok (.finite r) ∧
       |r - q| ≤ (1 / 1000000000) * |q|) :=
  ⟨fun q a b => convertByTable_round_trip length_table_pos q a b,
   fun q a b => convertByTable_round_trip weight_table_pos q a b,
   fun q a b => convertByTable_round_trip volume_table_pos q a b,
   fun q a b => temperature_round_trip q a b⟩

/-- With a total, positive factor table the unknown-unit and
zero-factor error branches cannot be taken. -/
lemma convertByTable_no_table_error {α : Type} [DecidableEq α] {table : List (α × ℚ)}
    (htable : ∀ u, ∃ f, lookupFactor table u = some f ∧ 0 < f)
    (v : PFloat) (a b : α) :
    convertByTable table v a b ≠ .error .unknownUnit ∧
    convertByTable table v a b ≠ .error .degenerateFactor := by
  by_cases hab : a = b
  · subst hab
    rw [convertByTable_self]
    exact ⟨by simp, by simp⟩
  · obtain ⟨fa, ha, hpa⟩ := htable a
    obtain ⟨fb, hb, hpb⟩ := htable b
    rw [convertByTable_eq v hab ha hb hpa.ne' hpb.ne']
    constructor <;> split <;> simp

/-- C6: every shipped length, weight and volume factor is a strictly
positive rational, the tables cover their whole unit enumeration, and
consequently no conversion can fail with the unknown-unit or
zero-factor errors. -/
theorem c6_tables_positive_total :
    (∀ u : LengthUnit, ∃ f, lookupFactor LENGTH_TO_METERS u = some f ∧ 0 < f) ∧
    (∀ u : WeightUnit, ∃ f, lookupFactor WEIGHT_TO_KILOGRAMS u = some f ∧ 0 < f) ∧
    (∀ u : VolumeUnit, ∃ f, lookupFactor VOLUME_TO_LITERS u = some f ∧ 0 < f) ∧
    (∀ (v : PFloat) (a b : LengthUnit),
       convert_length v a b ≠ .error .unknownUnit ∧
       convert_length v a b ≠ .error .degenerateFactor) ∧
    (∀ (v : PFloat) (a b : WeightUnit),
       convert_weight v a b ≠ .error .unknownUnit ∧
       convert_weight v a b ≠ .error .degenerateFactor) ∧
    (∀ (v : PFloat) (a b : VolumeUnit),
       convert_volume v a b ≠ .error .unknownUnit ∧
       convert_volume v a b ≠ .error .degenerateFactor) :=
  ⟨length_table_pos, weight_table_pos, volume_table_pos,
   fun v a b => convertByTable_no_table_error length_table_pos v a b,
   fun v a b => convertByTable_no_table_error weight_table_pos v a b,
   fun v a b => convertByTable_no_table_error volume_table_pos v a b⟩

/-- Adding to a history of at most 50 entries keeps the 50 most recent
entries (insertion is at the front; the popped entry is the last). -/
lemma add_to_history_take (e : String) (h : List String) (hl : h.length ≤ 50) :
    add_to_history e h = (e :: h).take 50 := by
  simp only [add_to_history]
  split
  · rename_i hgt
    simp only [List.length_cons] at hgt
    have h50 : h.length = 50 := by omega
    rw [List.dropLast_eq_take]
    simp [h50]
  · rename_i hle
    simp only [List.length_cons, Nat.not_lt] at hle
    rw [List.take_of_length_le (by simpa using hle)]

/-- C7: after adding an entry to a history of at most 50 entries the
history still has at most 50 entries, and adding to a full history of
exactly 50 entries evicts the oldest (last) entry, keeping the 50 most
recent conversions. -/
theorem c7_history_cap :
    (∀ (e : String) (h : List String), h.length ≤ 50 →
       add_to_history e h = (e :: h).take 50 ∧ (add_to_history e h).length ≤ 50) ∧
    (∀ (e : String) (h : List String), h.length = 50 →
       add_to_history e h = (e :: h).dropLast ∧ (add_to_history e h).length = 50) := by
  constructor
  · intro e h hl
    refine ⟨add_to_history_take e h hl, ?_⟩
    rw [add_to_history_take e h hl]
    simp
  · intro e h hl
    constructor
    · rw [add_to_history_take e h hl.le, List.dropLast_eq_take]
      simp [hl]
    · rw [add_to_history_take e h hl.le]
      simp [hl]

/-- Witness for C7: adding to a full history of 50 entries. -/
theorem c7_history_cap_witness :
    add_to_history "b" (List.replicate 50 "a") =
      ("b" :: List.replicate 50 "a").take 50 ∧
    (add_to_history "b" (List.replicate 50 "a")).length ≤ 50 :=
  c7_history_cap.1 "b" (List.replicate 50 "a") (by simp)

/-- C8 (code bug): `load_custom_theme` accepts the document whose
`primary` color is `"#+12345"` — Python's `int(s, 16)` parses the
leading sign — and returns the mapping, although the value is not a `#`
followed by six hexadecimal digits, for which the claim (and the
code's own comments) require the no-theme result; the missing-file and
malformed-JSON branches do return no theme. -/
theorem c8_theme_hex_validation_bug :
    load_custom_theme (.parsed badTheme) = some badTheme ∧
    specValidHex "#+12345" = false ∧
    load_custom_theme .missing = none ∧
    load_custom_theme .badJson = none := by decide

/-- C9: a non-finite value is returned unchanged by every conversion
with equal units (the identity short-circuit bypasses the overflow
guard), while the same value between distinct units raises the overflow
error. -/
theorem c9_nonfinite_short_circuit :
    ∀ v : PFloat, v.isFinite = false →
      ((∀ u : LengthUnit, convert_length v u u = .ok v) ∧
       (∀ a b : LengthUnit, a ≠ b →
          convert_length v a b = .error (.numericOverflow v))) ∧
      ((∀ u : WeightUnit, convert_weight v u u = .ok v) ∧
       (∀ a b : WeightUnit, a ≠ b →
          convert_weight v a b = .error (.numericOverflow v))) ∧
      ((∀ u : TemperatureUnit, convert_temperature v u u = .ok v) ∧
       (∀ a b : TemperatureUnit, a ≠ b →
          convert_temperature v a b = .error (.numericOverflow v))) ∧
      ((∀ u : VolumeUnit, convert_volume v u u = .ok v) ∧
       (∀ a b : VolumeUnit, a ≠ b →
          convert_volume v a b = .error (.numericOverflow v))) := by
  intro v hv
  refine ⟨⟨fun u => convertByTable_self _ _ u, fun a b hab => ?_⟩,
          ⟨fun u => convertByTable_self _ _ u, fun a b hab => ?_⟩,
          ⟨fun u => by simp [convert_temperature],
           fun a b hab => convert_temperature_nonfinite hv hab⟩,
          ⟨fun u => convertByTable_self _ _ u, fun a b hab => ?_⟩⟩
  · obtain ⟨fa, ha, hpa⟩ := length_table_pos a
    obtain ⟨fb, hb, hpb⟩ := length_table_pos b
    exact convertByTable_nonfinite hv hab ha hb hpa hpb
  · obtain ⟨fa, ha, hpa⟩ := weight_table_pos a
    obtain ⟨fb, hb, hpb⟩ := weight_table_pos b
    exact convertByTable_nonfinite hv hab ha hb hpa hpb
  · obtain ⟨fa, ha, hpa⟩ := volume_table_pos a
    obtain ⟨fb, hb, hpb⟩ := volume_table_pos b
    exact convertByTable_nonfinite hv hab ha hb hpa hpb

/-- Witness for C9: NaN passes through the meters-to-meters identity
unchanged, and positive infinity between distinct units overflows. -/
theorem c9_nonfinite_short_circuit_witness :
    convert_length .nan .meters .meters = .ok .nan ∧
    convert_length .posInf .meters .kilometers = .error (.numericOverflow .posInf) :=
  ⟨((c9_nonfinite_short_circuit .nan rfl).1).1 .meters,
   ((c9_nonfinite_short_circuit .posInf rfl).1).2 .meters .kilometers (by decide)⟩

/-- C10 counterexample: at input `+∞` with equal units the operation
returns `+∞` — neither a finite result nor the overflow error — so the
claim's final clause fails when read over all inputs and unit pairs. -/
theorem c10_counterexample :
    ¬ ((∃ q : ℚ, convert_temperature .posInf .celsius .celsius = .ok (.finite q)) ∨
       (∃ r, convert_temperature .posInf .celsius .celsius = .error (.numericOverflow r))) := by
  have hok : convert_temperature .posInf .celsius .celsius = .ok .posInf := rfl
  rw [hok]
  rintro (⟨q, hq⟩ | ⟨r, hr⟩)
  · exact PFloat.noConfusion (Except.ok.inj hq)
  · exact Except.noConfusion hr

/-- C10 (amended): `convert_temperature` can fail only with the overflow
error — never the unknown-unit or zero-factor errors — and between
distinct units every input yields a finite result or the overflow
error; with equal units the input is returned unchanged. -/
theorem c10_temperature_error_taxonomy :
    (∀ (v : PFloat) (a b : TemperatureUnit) (e : ConvError),
       convert_temperature v a b = .error e → ∃ r, e = .numericOverflow r) ∧
    (∀ (v : PFloat) (a b : TemperatureUnit), a ≠ b →
       (∃ q : ℚ, convert_temperature v a b = .ok (.finite q)) ∨
       (∃ r, convert_temperature v a b = .error (.numericOverflow r))) ∧
    (∀ (v : PFloat) (a : TemperatureUnit), convert_temperature v a a = .ok v) := by
  refine ⟨?_, ?_, fun v a => by simp [convert_temperature]⟩
  · intro v a b e he
    by_cases hab : a = b
    · subst hab
      simp [convert_temperature] at he
    · rw [convert_temperature_eq v hab] at he
      split at he
      · exact ⟨_, (Except.error.inj he).symm⟩
      · exact Except.noConfusion he
  · intro v a b hab
    cases v with
    | finite q => exact .inl ⟨_, convert_temperature_finite q hab⟩
    | posInf => exact .inr ⟨_, @convert_temperature_nonfinite .posInf rfl a b hab⟩
    | negInf => exact .inr ⟨_, @convert_temperature_nonfinite .negInf rfl a b hab⟩
    | nan => exact .inr ⟨_, @convert_temperature_nonfinite .nan rfl a b hab⟩

/-- Witness for C10 (amended): the Celsius-to-Fahrenheit pair at `0`. -/
theorem c10_temperature_error_taxonomy_witness :
    (∃ q : ℚ, convert_temperature (.finite 0) .celsius .fahrenheit = .ok (.finite q)) ∨
    (∃ r, convert_temperature (.finite 0) .celsius .fahrenheit = .error (.numericOverflow r)) :=
  (c10_temperature_error_taxonomy.2).1 (.finite 0) .celsius .fahrenheit (by decide)
